import Mathlib

/-!
# Verification of the crypto-hash-exception reconciliation pipeline

Shallow embedding of the core logic of the repository:

* `02_sync_ms_form.py` — amount sign policy (`_extract_amount_with_category_logic`)
  and transaction-hash canonicalization (`_extract_hash_from_url`);
* `src/tronscan_api.py` — scaled-amount conversion (`_convert_amount_to_readable`),
  transaction normalization (`_normalize_transaction`, `_extract_trx_value`);
* `scripts/exception_analysis.py` — the reconciliation engine (`analyze_exceptions`,
  `_get_severity`, `read_ms_form_data`, `read_tronscan_data`, `main`'s abort gate);
* `src/historical_price_fetcher.py` — the cached price oracle.

Modelling conventions:

* Python `float` amounts are modelled as exact rationals (`ℚ`); numeric string
  parsing covers finite decimal literals (optional sign, digits, one optional dot),
  the grammar Python's `float()` accepts apart from exponents and the non-finite
  literals `inf`/`nan`, which have no rational counterpart.
* Python dicts are association lists with last-write-wins upsert and first-match
  lookup over distinct keys.
* `decimal.Decimal` division under `getcontext().prec = 28` is modelled exactly:
  the quotient is exact whenever it is representable in 28 significant digits,
  otherwise correctly rounded (round-half-even) to 28 significant digits.
-/

/-! ## String and parsing utilities -/

/-- Whitespace characters removed by Python's `str.strip()` / the `\s` regex class. -/
def isSpaceChar (c : Char) : Bool :=
  c = ' ' || c = '\t' || c = '\n' || c = '\r' || c = '\x0b' || c = '\x0c'

/-- Python `str.strip()`: drop leading and trailing whitespace. -/
def pyStrip (s : String) : String :=
  ⟨((s.data.dropWhile isSpaceChar).reverse.dropWhile isSpaceChar).reverse⟩

/-- Remove every occurrence of the characters in `bad` (Python `str.replace(c, '')`). -/
def removeChars (bad : List Char) (s : String) : String :=
  ⟨s.data.filter (fun c => !bad.contains c)⟩

/-- Python `str.upper()` (ASCII case mapping suffices for the token symbols used). -/
def pyUpper (s : String) : String :=
  ⟨s.data.map Char.toUpper⟩

/-- Python `str.lower()`. -/
def pyLower (s : String) : String :=
  ⟨s.data.map Char.toLower⟩

/-- `pat` occurs as a contiguous prefix of `cs`. -/
def matchPat : List Char → List Char → Bool
  | [], _ => true
  | _ :: _, [] => false
  | p :: ps, c :: cs => p == c && matchPat ps cs

/-- Python `pat in s` on character lists: `pat` occurs contiguously somewhere. -/
def containsSub (pat : List Char) : List Char → Bool
  | [] => pat.isEmpty
  | c :: cs => matchPat pat (c :: cs) || containsSub pat cs

/-- Python `sub in s` on strings. -/
def strContains (s sub : String) : Bool :=
  containsSub sub.data s.data

/-- Numeric value of a digit list (most significant first); junk on non-digits,
guarded by `allDigits` at use sites. -/
def digitsToNat (l : List Char) : ℕ :=
  l.foldl (fun a c => a * 10 + (c.toNat - 48)) 0

/-- Every character is a decimal digit. -/
def allDigits (l : List Char) : Bool :=
  l.all (fun c => c.isDigit)

/-- Decompose a finite decimal literal (the grammar accepted by Python `float()`
minus exponents and `inf`/`nan`): optional sign, then `digits`, `digits.digits`,
`digits.` or `.digits`. Yields (is-negative, integer-part value, fraction-part
value, fraction length); `none` exactly when `float()` would raise `ValueError`
on such inputs. -/
def parseParts (s : String) : Option (Bool × ℕ × ℕ × ℕ) :=
  let go : List Char → Option (ℕ × ℕ × ℕ) := fun cs =>
    let ip := cs.takeWhile (fun c => c ≠ '.')
    let rest := cs.dropWhile (fun c => c ≠ '.')
    match rest with
    | [] =>
      if ip ≠ [] && allDigits ip then some (digitsToNat ip, 0, 0) else none
    | _ :: fp =>
      if fp.contains '.' then none
      else if (ip ≠ [] || fp ≠ []) && allDigits ip && allDigits fp then
        some (digitsToNat ip, digitsToNat fp, fp.length)
      else none
  match s.data with
  | '+' :: cs => (go cs).map (fun p => (false, p))
  | '-' :: cs => (go cs).map (fun p => (true, p))
  | cs => (go cs).map (fun p => (false, p))

/-- The rational value of a decomposed decimal literal. -/
def ratOfParts : Bool × ℕ × ℕ × ℕ → ℚ
  | (neg, ip, fp, fl) =>
    let mag : ℚ := (ip : ℚ) + (fp : ℚ) / 10 ^ fl
    if neg then -mag else mag

/-- Python `float(s)` on finite decimal literals, as an exact rational. -/
def parseDecimal (s : String) : Option ℚ :=
  (parseParts s).map ratOfParts

/-- Parse a nonnegative-integer digit string (the shape of `rawAmount` per the
data model, fed to `Decimal(str(raw_amount))`). -/
def parseNatStr (s : String) : Option ℕ :=
  if s.data ≠ [] && allDigits s.data then some (digitsToNat s.data) else none

/-- Index of the LAST element satisfying `p` (Python's `for i, h in enumerate(...)`
loops keep overwriting the found column index, so the last match wins). -/
def lastIdxWhere (p : α → Bool) : List α → Option ℕ
  | [] => none
  | a :: l =>
    match lastIdxWhere p l with
    | some i => some (i + 1)
    | none => if p a then some 0 else none

/-! ## AmountConverter — `02_sync_ms_form.py`, `_extract_amount_with_category_logic`

Categories forcing a positive sign (`MSFormSyncer.negative_categories`, lines 56–62
of `02_sync_ms_form.py`; despite the name, membership forces `abs`, i.e. positive). -/

def negative_categories : List String :=
  ["MARKETING - REIMBURSEMENT", "EXPENSE - REIMBURSEMENT", "REFUND",
   "CHARGEBACK", "WITHDRAWAL"]

/-- `re.sub(r'[,$\s]', '', amount_str)`: drop commas, dollar signs, whitespace. -/
def cleanAmount (s : String) : String :=
  ⟨s.data.filter (fun c => !(c = ',' || c = '$' || isSpaceChar c))⟩

/-- `cleaned.startswith('(') and cleaned.endswith(')')`. -/
def isParenWrapped (s : String) : Bool :=
  let c := (cleanAmount s).data
  (match c with | '(' :: _ => true | _ => false) &&
  (match c.reverse with | ')' :: _ => true | _ => false)

/-- Python `str.strip('()')`: drop any leading/trailing `(` or `)` characters. -/
def stripParens (s : String) : String :=
  let isP : Char → Bool := fun c => c = '(' || c = ')'
  ⟨((s.data.dropWhile isP).reverse.dropWhile isP).reverse⟩

/-- The magnitude-parsing step of `_extract_amount_with_category_logic`:
clean, optionally strip parentheses, then `float(cleaned) if cleaned else 0.0`.
`none` models the exception path (caught: the caller returns `0.0`). -/
def parsedBase (s : String) : Option ℚ :=
  let cleaned := cleanAmount s
  let cleaned2 := if isParenWrapped s then stripParens cleaned else cleaned
  if cleaned2 = "" then some 0 else parseDecimal cleaned2

/-- `MSFormSyncer._extract_amount_with_category_logic` (02_sync_ms_form.py 191–224):
empty string returns 0; parenthesized amounts are negative regardless of category;
otherwise categories in `negative_categories` force `abs`, all others force `-abs`;
any parse failure is caught and returns 0. -/
def extract_amount_with_category_logic (amount_str category : String) : ℚ :=
  if amount_str = "" then 0
  else
    match parsedBase amount_str with
    | none => 0
    | some base =>
      if isParenWrapped amount_str then -|base|
      else if category ∈ negative_categories then |base|
      else -|base|

/-! ## HashExtractor — `02_sync_ms_form.py`, `_extract_hash_from_url` -/

/-- Hexadecimal character class `[a-fA-F0-9]`. -/
def isHexChar (c : Char) : Bool :=
  c.isDigit || ('a' ≤ c && c ≤ 'f') || ('A' ≤ c && c ≤ 'F')

/-- Exactly 64 hexadecimal characters (`re.match(r'^[a-fA-F0-9]{64}$', ...)`). -/
def is64Hex (s : String) : Bool :=
  s.data.length = 64 && s.data.all isHexChar

/-- The literal part of the pattern `r'/transaction/([a-fA-F0-9]{64})'`. -/
def txPat : List Char := "/transaction/".data

/-- `re.search(r'/transaction/([a-fA-F0-9]{64})', raw)`: leftmost occurrence of
`/transaction/` that is immediately followed by 64 hex characters; returns the
captured 64 characters. A position where the literal matches but fewer than 64
hex characters follow is skipped and the search resumes one character later,
exactly as regex backtracking does. -/
def findTxHash : List Char → Option (List Char)
  | [] => none
  | c :: cs =>
    if matchPat txPat (c :: cs) then
      let cand := ((c :: cs).drop txPat.length).take 64
      if cand.length = 64 && cand.all isHexChar then some cand
      else findTxHash cs
    else findTxHash cs

/-- `MSFormSyncer._extract_hash_from_url` (02_sync_ms_form.py 172–189): empty input
returns `''`; the `/transaction/` extraction is attempted only when the input
contains `tronscan.org`; a bare 64-hex string is returned as-is; everything else
is returned unchanged (the last two branches both return the input). -/
def extract_hash_from_url (raw : String) : String :=
  if raw = "" then ""
  else if strContains raw "tronscan.org" then
    match findTxHash raw.data with
    | some h => ⟨h⟩
    | none => if is64Hex raw then raw else raw
  else if is64Hex raw then raw else raw

/-! ## Scaled-amount conversion — `src/tronscan_api.py`, `_convert_amount_to_readable`

`decimal.Decimal` arithmetic under `getcontext().prec = 28`. -/

/-- Fuel-driven digit count in base 10 (`numDigits 0 = 0`). -/
def numDigitsAux : ℕ → ℕ → ℕ
  | 0, _ => 0
  | fuel + 1, n => if n = 0 then 0 else numDigitsAux fuel (n / 10) + 1

/-- Number of base-10 digits of `n` (0 for 0). -/
def numDigits (n : ℕ) : ℕ := numDigitsAux n n

/-- Fuel-driven removal of trailing zero digits. -/
def stripZerosAux : ℕ → ℕ → ℕ
  | 0, n => n
  | fuel + 1, n => if n ≠ 0 && n % 10 = 0 then stripZerosAux fuel (n / 10) else n

/-- `n` with all trailing base-10 zeros removed. -/
def stripZeros (n : ℕ) : ℕ := stripZerosAux n n

/-- Significant decimal digits of `n`: digits after dropping trailing zeros.
A Decimal quotient `n / 10^d` is exactly representable at precision 28 iff
`sigDigits n ≤ 28`. -/
def sigDigits (n : ℕ) : ℕ := numDigits (stripZeros n)

/-- Round-half-even of a rational to an integer (Decimal's `ROUND_HALF_EVEN`). -/
def roundHalfEven (q : ℚ) : ℤ :=
  let f := ⌊q⌋
  let r := q - f
  if r < 1 / 2 then f
  else if 1 / 2 < r then f + 1
  else if f % 2 = 0 then f else f + 1

/-- `Decimal(raw) / Decimal(10) ** d` at `getcontext().prec = 28`: exact when the
quotient fits in 28 significant digits, otherwise the coefficient is rounded
half-even to 28 significant digits. -/
def decDiv (raw : ℕ) (d : ℕ) : ℚ :=
  if sigDigits raw ≤ 28 then (raw : ℚ) / 10 ^ d
  else
    let k := numDigits raw - 28
    (roundHalfEven ((raw : ℚ) / 10 ^ k) : ℚ) * 10 ^ k / 10 ^ d

/-- `TronScanAPI._convert_amount_to_readable` (tronscan_api.py 85–128), restricted
to the fields the claims mention: returns `(amount_raw, amount_formatted)`.
Empty or `'0'` input short-circuits to `('0', 0)`. On a non-numeric raw string
`Decimal(...)` raises, the handler echoes the raw string into `amount_formatted`
(not a number): modelled as `none`. The USD-valuation fields call the price
oracle, modelled separately below, and are not constrained by any claim. -/
def convert_amount_to_readable (raw : String) (decimals : ℕ) : String × Option ℚ :=
  if raw = "" || raw = "0" then ("0", some 0)
  else
    match parseNatStr raw with
    | some n => (raw, some (decDiv n decimals))
    | none => (raw, none)

/-! ## TransactionNormalizer — `src/tronscan_api.py`, `_normalize_transaction` -/

/-- One structured token-transfer entry (`trc20TransferInfo` / `tokenTransferInfo`
items, with the defaults `_extract_token_transfers` applies via `.get`). -/
structure TokenTransferInfo where
  symbol : String
  name : String
  contract_address : String
  amount_str : String
  decimals : ℕ
  from_address : String
  to_address : String
deriving Repr, DecidableEq

/-- `tx['contractData']` as far as `_extract_trx_value` reads it. -/
structure ContractData where
  amount : Option String
deriving Repr, DecidableEq

/-- A raw chain transaction, restricted to the fields `_normalize_transaction`
and `_extract_trx_value` consume. `amount`/`value` are `some s` when the key is
present (already stringified, as `str(tx[...])` does); `contractData` is `some`
when present and truthy. -/
structure RawTransaction where
  hash : String
  timestamp : ℤ
  confirmed : Bool
  contractType : ℕ
  ownerAddress : String
  toAddress : String
  trc20TransferInfo : List TokenTransferInfo
  tokenTransferInfo : List TokenTransferInfo
  amount : Option String
  value : Option String
  contractData : Option ContractData
deriving Repr, DecidableEq

/-- A transfer as `_extract_token_transfers` emits it: TRC20 entries first, then
TRC10 entries (TRC10 contract addresses are blanked). `transfer_type` is
`'TRC20'` or `'TRC10'`. -/
structure ExtractedTransfer where
  transfer_type : String
  token_symbol : String
  token_name : String
  contract_address : String
  amount_str : String
  decimals : ℕ
  from_address : String
  to_address : String
deriving Repr, DecidableEq

/-- `TronScanAPI._extract_token_transfers` (tronscan_api.py 49–83). -/
def extract_token_transfers (tx : RawTransaction) : List ExtractedTransfer :=
  tx.trc20TransferInfo.map (fun t =>
    { transfer_type := "TRC20", token_symbol := pyUpper t.symbol,
      token_name := t.name, contract_address := t.contract_address,
      amount_str := t.amount_str, decimals := t.decimals,
      from_address := t.from_address, to_address := t.to_address }) ++
  tx.tokenTransferInfo.map (fun t =>
    { transfer_type := "TRC10", token_symbol := pyUpper t.symbol,
      token_name := t.name, contract_address := "",
      amount_str := t.amount_str, decimals := t.decimals,
      from_address := t.from_address, to_address := t.to_address })

/-- `TronScanAPI._extract_trx_value` (tronscan_api.py 254–262): first present of
the top-level `amount` field, the `value` field, the nested
`contractData['amount']` (defaulting to `0`), else `'0'`. -/
def extract_trx_value (tx : RawTransaction) : String :=
  match tx.amount with
  | some a => a
  | none =>
    match tx.value with
    | some v => v
    | none =>
      match tx.contractData with
      | some cd => cd.amount.getD "0"
      | none => "0"

/-- A canonical transfer record, restricted to the fields the claims constrain
(the USD-valuation fields consult the price oracle, modelled separately). -/
structure CanonicalRecord where
  hash : String
  from_address : String
  to_address : String
  amount_raw : String
  amount_formatted : Option ℚ
  token_symbol : String
  transfer_type : String
deriving Repr, DecidableEq

/-- `TronScanAPI._normalize_transaction` (tronscan_api.py 185–252): one record per
extracted token transfer; when there are none, exactly one synthetic TRX record
built from `_extract_trx_value` at the native 6 decimals. -/
def normalize_transaction (tx : RawTransaction) : List CanonicalRecord :=
  let transfers := extract_token_transfers tx
  if transfers.isEmpty then
    let amount_data := convert_amount_to_readable (extract_trx_value tx) 6
    [{ hash := tx.hash, from_address := tx.ownerAddress, to_address := tx.toAddress,
       amount_raw := amount_data.1, amount_formatted := amount_data.2,
       token_symbol := "TRX", transfer_type := "TRX" }]
  else
    transfers.map (fun t =>
      let amount_data := convert_amount_to_readable t.amount_str t.decimals
      { hash := tx.hash, from_address := t.from_address, to_address := t.to_address,
        amount_raw := amount_data.1, amount_formatted := amount_data.2,
        token_symbol := t.token_symbol, transfer_type := t.transfer_type })

/-! ## ReconciliationEngine — `scripts/exception_analysis.py` -/

/-- A value of the MS_FORM dict built by `read_ms_form_data`. -/
structure MsRecord where
  amount : ℚ
  row_number : ℕ
deriving Repr, DecidableEq

/-- A value of the TRONSCAN dict built by `read_tronscan_data`. -/
structure TsRecord where
  amount : ℚ
  row_number : ℕ
  wallet : String
deriving Repr, DecidableEq

/-- The `exception_type` strings of `analyze_exceptions`. -/
inductive ExcType where
  | MATCHED
  | AMOUNT_DIFFERENT
  | IN_FORM_NOT_TRONSCAN
  | IN_TRONSCAN_NOT_FORM
deriving Repr, DecidableEq

/-- The severity strings of `_get_severity`. -/
inductive Severity where
  | OK
  | LOW
  | MEDIUM
  | HIGH
deriving Repr, DecidableEq

/-- One reconciliation output record. Row numbers are `none` for the `'N/A'`
cells of one-sided records. -/
structure ExceptionRecord where
  hash : String
  exception_type : ExcType
  ms_form_amount : ℚ
  tronscan_amount : ℚ
  difference : ℚ
  tronscan_wallet : String
  ms_form_row : Option ℕ
  tronscan_row : Option ℕ
deriving Repr, DecidableEq

/-- First-match association-list lookup (Python `d[k]` / `k in d` on dicts whose
keys are distinct). -/
def alookup (k : String) : List (String × β) → Option β
  | [] => none
  | (k', v) :: rest => if k' = k then some v else alookup k rest

/-- The body of the `for tx_hash in all_hashes` loop of
`ExceptionAnalyzer.analyze_exceptions` (exception_analysis.py 164–224): classify
one hash against both dicts. `none` only when the hash is in neither dict —
a case the loop never visits. -/
def classifyHash (ms : List (String × MsRecord)) (ts : List (String × TsRecord))
    (tol : ℚ) (h : String) : Option ExceptionRecord :=
  match alookup h ms, alookup h ts with
  | some ra, some rb =>
    if |ra.amount - rb.amount| ≤ tol then
      some { hash := h, exception_type := .MATCHED,
             ms_form_amount := ra.amount, tronscan_amount := rb.amount,
             difference := 0, tronscan_wallet := rb.wallet,
             ms_form_row := some ra.row_number, tronscan_row := some rb.row_number }
    else
      some { hash := h, exception_type := .AMOUNT_DIFFERENT,
             ms_form_amount := ra.amount, tronscan_amount := rb.amount,
             difference := |ra.amount - rb.amount|, tronscan_wallet := rb.wallet,
             ms_form_row := some ra.row_number, tronscan_row := some rb.row_number }
  | some ra, none =>
    some { hash := h, exception_type := .IN_FORM_NOT_TRONSCAN,
           ms_form_amount := ra.amount, tronscan_amount := 0,
           difference := ra.amount, tronscan_wallet := "",
           ms_form_row := some ra.row_number, tronscan_row := none }
  | none, some rb =>
    some { hash := h, exception_type := .IN_TRONSCAN_NOT_FORM,
           ms_form_amount := 0, tronscan_amount := rb.amount,
           difference := rb.amount, tronscan_wallet := rb.wallet,
           ms_form_row := none, tronscan_row := some rb.row_number }
  | none, none => none

/-- `set(ms_form_data.keys()) | set(tronscan_data.keys())` as a duplicate-free
list (Python set iteration order is unspecified; the claims are order-free). -/
def allHashes (ms : List (String × MsRecord)) (ts : List (String × TsRecord)) :
    List String :=
  (ms.map Prod.fst ++ ts.map Prod.fst).dedup

/-- `ExceptionAnalyzer.analyze_exceptions` (exception_analysis.py 157–226):
one classification per distinct hash in either source. -/
def analyze_exceptions (ms : List (String × MsRecord)) (ts : List (String × TsRecord))
    (tol : ℚ) : List ExceptionRecord :=
  (allHashes ms ts).filterMap (classifyHash ms ts tol)

/-- `ExceptionAnalyzer._get_severity` (exception_analysis.py 327–345). -/
def get_severity (e : ExceptionRecord) : Severity :=
  match e.exception_type with
  | .MATCHED => .OK
  | .AMOUNT_DIFFERENT =>
    if e.difference < 1 then .LOW
    else if e.difference < 100 then .MEDIUM
    else .HIGH
  | _ =>
    if e.difference < 100 then .MEDIUM
    else .HIGH

/-! ## Sheet readers and the abort gate — `scripts/exception_analysis.py` -/

/-- Dict insertion with Python semantics: overwrite the existing binding in place,
else append. -/
def upsertMs (l : List (String × MsRecord)) (k : String) (v : MsRecord) :
    List (String × MsRecord) :=
  if (alookup k l).isSome then
    l.map (fun p => if p.1 = k then (k, v) else p)
  else l ++ [(k, v)]

/-- Dict insertion for the TRONSCAN dict. -/
def upsertTs (l : List (String × TsRecord)) (k : String) (v : TsRecord) :
    List (String × TsRecord) :=
  if (alookup k l).isSome then
    l.map (fun p => if p.1 = k then (k, v) else p)
  else l ++ [(k, v)]

/-- The MS_FORM amount cell parse (exception_analysis.py 64–71): strip, drop
commas and dollar signs, `float(...) if amount_str else 0.0`, exceptions → 0. -/
def parseMsAmount (cell : String) : ℚ :=
  let t := removeChars [',', '$'] (pyStrip cell)
  if t = "" then 0 else (parseDecimal t).getD 0

/-- The TRONSCAN amount cell parse (exception_analysis.py 134–140): strip, drop
commas only, `float(...) if amount_str else 0.0`, exceptions → 0. -/
def parseTsAmount (cell : String) : ℚ :=
  let t := removeChars [','] (pyStrip cell)
  if t = "" then 0 else (parseDecimal t).getD 0

/-- The MS_FORM row loop (exception_analysis.py 60–78): keep rows long enough to
reach the hash column with a nonempty stripped hash; the amount is parsed when an
amount column was found and the row reaches it, else 0. `rowIdx` starts at 2. -/
def buildMsDict (hashCol : ℕ) (amountCol : Option ℕ) :
    List (String × MsRecord) → ℕ → List (List String) → List (String × MsRecord)
  | acc, _, [] => acc
  | acc, rowIdx, row :: rest =>
    if hashCol < row.length && pyStrip (row.getD hashCol "") ≠ "" then
      let txHash := pyStrip (row.getD hashCol "")
      let amount : ℚ :=
        match amountCol with
        | some ac => if ac < row.length then parseMsAmount (row.getD ac "") else 0
        | none => 0
      buildMsDict hashCol amountCol
        (upsertMs acc txHash { amount := amount, row_number := rowIdx }) (rowIdx + 1) rest
    else
      buildMsDict hashCol amountCol acc (rowIdx + 1) rest

/-- The TRONSCAN row loop (exception_analysis.py 123–148): like the MS_FORM loop
but skips the `TOTAL` row and also records the wallet column. -/
def buildTsDict (hashCol walletCol amtCol : ℕ) :
    List (String × TsRecord) → ℕ → List (List String) → List (String × TsRecord)
  | acc, _, [] => acc
  | acc, rowIdx, row :: rest =>
    if hashCol < row.length && pyStrip (row.getD hashCol "") ≠ "" then
      let txHash := pyStrip (row.getD hashCol "")
      if pyUpper txHash = "TOTAL" then
        buildTsDict hashCol walletCol amtCol acc (rowIdx + 1) rest
      else
        let wallet := if walletCol < row.length then pyStrip (row.getD walletCol "") else ""
        let amount := if amtCol < row.length then parseTsAmount (row.getD amtCol "") else 0
        buildTsDict hashCol walletCol amtCol
          (upsertTs acc txHash { amount := amount, row_number := rowIdx, wallet := wallet })
          (rowIdx + 1) rest
    else
      buildTsDict hashCol walletCol amtCol acc (rowIdx + 1) rest

/-- The MS_FORM hash-column discovery (exception_analysis.py 47–49): last header
whose stripped lowercase form contains `trxhash` or `hash`. -/
def msHashCol (headers : List String) : Option ℕ :=
  lastIdxWhere
    (fun h => strContains h "trxhash" || strContains h "hash")
    (headers.map (fun h => pyLower (pyStrip h)))

/-- The MS_FORM amount-column discovery (exception_analysis.py 50–51). -/
def msAmountCol (headers : List String) : Option ℕ :=
  lastIdxWhere
    (fun h => strContains h "amount" || strContains h "usdt")
    (headers.map (fun h => pyLower (pyStrip h)))

/-- `ExceptionAnalyzer.read_ms_form_data` (exception_analysis.py 28–85) on an
in-memory sheet (list of rows of cells). An empty sheet returns `{}`; a sheet
whose headers yield no hash column logs an error and returns `{}` as well. -/
def read_ms_form_data (sheet : List (List String)) : List (String × MsRecord) :=
  match sheet with
  | [] => []
  | headerRow :: dataRows =>
    match msHashCol headerRow with
    | none => []
    | some hc => buildMsDict hc (msAmountCol headerRow) [] 2 dataRows

/-- The TRONSCAN column discovery (exception_analysis.py 107–113): exact matches
of the stripped lowercase headers against `hash`, `wallet`, `amt`. -/
def tsCols (headers : List String) : Option ℕ × Option ℕ × Option ℕ :=
  let hs := headers.map (fun h => pyLower (pyStrip h))
  (lastIdxWhere (fun h => h = "hash") hs,
   lastIdxWhere (fun h => h = "wallet") hs,
   lastIdxWhere (fun h => h = "amt") hs)

/-- `ExceptionAnalyzer.read_tronscan_data` (exception_analysis.py 87–155): requires
both the hash and the amt column, else logs an error and returns `{}`. A missing
wallet column would raise inside the row loop; the spec's record store always has
it, so the model reads the wallet defensively (out-of-range cells read as `''`). -/
def read_tronscan_data (sheet : List (List String)) : List (String × TsRecord) :=
  match sheet with
  | [] => []
  | headerRow :: dataRows =>
    match tsCols headerRow with
    | (some hc, wc, some ac) => buildTsDict hc (wc.getD 0) ac [] 2 dataRows
    | _ => []

/-- `main`'s abort gate (exception_analysis.py 387–389): `sys.exit(1)` iff both
sheets produced empty dicts; otherwise the run proceeds to `analyze_exceptions`. -/
def mainAborts (msSheet tsSheet : List (List String)) : Bool :=
  (read_ms_form_data msSheet).isEmpty && (read_tronscan_data tsSheet).isEmpty

/-! ## PriceOracle — `src/historical_price_fetcher.py` -/

/-- `HistoricalPriceFetcher.token_mapping` (historical_price_fetcher.py 17–30). -/
def token_mapping : List (String × String) :=
  [("TRX", "tron"), ("USDT", "tether"), ("USDC", "usd-coin"), ("BTT", "bittorrent"),
   ("JST", "just"), ("SUN", "sun-token"), ("WIN", "wink"), ("JUST", "just"),
   ("NFT", "apenft"), ("USDJ", "just-stablecoin"), ("TUSD", "true-usd"),
   ("LIVE", "live-coin")]

/-- `HistoricalPriceFetcher._get_fallback_price` (historical_price_fetcher.py 88–95);
unknown symbols default to 0. -/
def fallback_price (sym : String) : ℚ :=
  (alookup sym
    [("TRX", 12/100), ("USDT", 1), ("USDC", 1), ("BTT", 8/10000000),
     ("JST", 25/1000), ("SUN", 6/1000), ("WIN", 8/100000), ("JUST", 25/1000),
     ("NFT", 5/10000000), ("USDJ", 1), ("TUSD", 1), ("LIVE", 1/1000)]).getD 0

/-- The calendar date of a millisecond timestamp, as a day number
(`datetime.fromtimestamp(ts/1000).strftime('%Y-%m-%d')`; the timezone offset is
abstracted away — two timestamps map to the same date iff they fall in the same
86 400 000 ms window). -/
def dateOf (ts : ℤ) : ℤ := Int.fdiv ts 86400000

/-- First-match lookup in the price cache, keyed by (uppercased symbol, date). -/
def cacheLookup : List ((String × ℤ) × ℚ) → (String × ℤ) → Option ℚ
  | [], _ => none
  | (k, v) :: rest, key => if k = key then some v else cacheLookup rest key

/-- The external price service's behavior, abstracted: for a CoinGecko coin id and
a date it either supplies a usable USD price (`some p`) or fails in any way —
network error, malformed response, missing field (`none`). -/
def FetchOracle : Type := String → ℤ → Option ℚ

/-- `HistoricalPriceFetcher._fetch_historical_price_from_coingecko`
(historical_price_fetcher.py 53–86): symbols absent from `token_mapping` fall back
immediately without a network call; otherwise any fetch failure is caught and the
fallback price is returned. This function never raises. -/
def fetch_historical_price_from_coingecko (oracle : FetchOracle) (sym : String)
    (date : ℤ) : ℚ :=
  match alookup sym token_mapping with
  | none => fallback_price sym
  | some coinId =>
    match oracle coinId date with
    | some p => p
    | none => fallback_price sym

/-- `HistoricalPriceFetcher.get_historical_price` (historical_price_fetcher.py
32–51): uppercase the symbol, compute the calendar date, return the cached price on
a hit; on a miss invoke the fetch helper (which resolves every failure to a
fallback value itself, so the `except` fallback path of the caller is
unreachable), cache the result and return it. The result triple is
(price, new cache, whether the fetch helper was invoked). -/
def get_historical_price (oracle : FetchOracle) (cache : List ((String × ℤ) × ℚ))
    (sym : String) (ts : ℤ) : ℚ × List ((String × ℤ) × ℚ) × Bool :=
  let key := (pyUpper sym, dateOf ts)
  match cacheLookup cache key with
  | some p => (p, cache, false)
  | none =>
    let p := fetch_historical_price_from_coingecko oracle key.1 key.2
    (p, (key, p) :: cache, true)

/-- `HistoricalPriceFetcher.clear_cache` (historical_price_fetcher.py 97–99). -/
def clear_cache (_cache : List ((String × ℤ) × ℚ)) : List ((String × ℤ) × ℚ) := []

/-! ## Helper lemmas -/

/-- `alookup` succeeds exactly on the keys of the list. -/
theorem alookup_isSome_iff {β : Type} (k : String) (l : List (String × β)) :
    (alookup k l).isSome ↔ k ∈ l.map Prod.fst := by
  induction l with
  | nil => simp [alookup]
  | cons p rest ih =>
    obtain ⟨k', v⟩ := p
    by_cases h : k' = k
    · subst h; simp [alookup]
    · simp [alookup, h, ih, Ne.symm h]

/-- A successful classification carries the hash it classified. -/
theorem classifyHash_hash (ms : List (String × MsRecord)) (ts : List (String × TsRecord))
    (tol : ℚ) (h : String) (r : ExceptionRecord)
    (hc : classifyHash ms ts tol h = some r) : r.hash = h := by
  unfold classifyHash at hc
  rcases hms : alookup h ms with _ | ra <;> rcases hts : alookup h ts with _ | rb <;>
    rw [hms, hts] at hc <;> dsimp only at hc
  · exact Option.noConfusion hc
  · cases hc; rfl
  · cases hc; rfl
  · split at hc <;> (cases hc; rfl)

/-- Classification succeeds on every hash present in at least one source. -/
theorem classifyHash_isSome (ms : List (String × MsRecord)) (ts : List (String × TsRecord))
    (tol : ℚ) (h : String)
    (hmem : (alookup h ms).isSome ∨ (alookup h ts).isSome) :
    ∃ r, classifyHash ms ts tol h = some r := by
  unfold classifyHash
  rcases hms : alookup h ms with _ | ra <;> rcases hts : alookup h ts with _ | rb
  · rw [hms, hts] at hmem; simp at hmem
  · exact ⟨_, rfl⟩
  · exact ⟨_, rfl⟩
  · dsimp only
    split <;> exact ⟨_, rfl⟩

/-- A `filterMap` that succeeds pointwise with a left inverse is an identity. -/
theorem filterMap_map_eq_self {α β : Type} (f : α → Option β) (g : β → α) :
    ∀ l : List α, (∀ a ∈ l, ∃ b, f a = some b ∧ g b = a) → (l.filterMap f).map g = l := by
  intro l
  induction l with
  | nil => intro _; rfl
  | cons a rest ih =>
    intro H
    obtain ⟨b, hb, hg⟩ := H a (by simp)
    simp [List.filterMap_cons, hb, hg, ih (fun x hx => H x (by simp [hx]))]

/-- The output hashes of `analyze_exceptions` are exactly the deduplicated union
of the two key sets. -/
theorem analyze_exceptions_hashes (ms : List (String × MsRecord))
    (ts : List (String × TsRecord)) (tol : ℚ) :
    (analyze_exceptions ms ts tol).map ExceptionRecord.hash = allHashes ms ts := by
  apply filterMap_map_eq_self
  intro h hmem
  have hun : h ∈ ms.map Prod.fst ∨ h ∈ ts.map Prod.fst := by
    have := List.mem_dedup.mp hmem
    simpa using List.mem_append.mp this
  have hsome : (alookup h ms).isSome ∨ (alookup h ts).isSome := by
    rcases hun with hl | hr
    · exact Or.inl ((alookup_isSome_iff h ms).mpr hl)
    · exact Or.inr ((alookup_isSome_iff h ts).mpr hr)
  obtain ⟨r, hr⟩ := classifyHash_isSome ms ts tol h hsome
  exact ⟨r, hr, classifyHash_hash ms ts tol h r hr⟩

/-! ## C1 — reconciliation totality and uniqueness -/

/-- C1: for every pair of input record sets, the reconciliation output has
exactly one record per hash in the union of the key sets and no others: its
length is the number of distinct hashes across both sources, its hash column is
duplicate-free, and a hash appears in the output iff it is a key of either
source. -/
theorem analyze_exceptions_total_unique (ms : List (String × MsRecord))
    (ts : List (String × TsRecord)) (tol : ℚ) :
    (analyze_exceptions ms ts tol).length
        = ((ms.map Prod.fst ++ ts.map Prod.fst).dedup).length ∧
    ((analyze_exceptions ms ts tol).map ExceptionRecord.hash).Nodup ∧
    ∀ h, h ∈ (analyze_exceptions ms ts tol).map ExceptionRecord.hash ↔
        (h ∈ ms.map Prod.fst ∨ h ∈ ts.map Prod.fst) := by
  have key := analyze_exceptions_hashes ms ts tol
  refine ⟨?_, ?_, ?_⟩
  · calc (analyze_exceptions ms ts tol).length
        = ((analyze_exceptions ms ts tol).map ExceptionRecord.hash).length := by
          rw [List.length_map]
      _ = ((ms.map Prod.fst ++ ts.map Prod.fst).dedup).length := by
          rw [key]; rfl
  · rw [key]; exact List.nodup_dedup _
  · intro h
    rw [key]
    unfold allHashes
    rw [List.mem_dedup, List.mem_append]

/-- C1 witness: a concrete instance with overlapping and disjoint hashes. -/
theorem analyze_exceptions_total_unique_witness :
    (analyze_exceptions [("h1", ⟨100, 2⟩), ("h2", ⟨5, 3⟩)]
        [("h1", ⟨150, 2, "w"⟩), ("h3", ⟨500, 3, "v"⟩)] (1/100)).length
        = (([("h1", (⟨100, 2⟩ : MsRecord)), ("h2", ⟨5, 3⟩)].map Prod.fst ++
            [("h1", (⟨150, 2, "w"⟩ : TsRecord)), ("h3", ⟨500, 3, "v"⟩)].map Prod.fst).dedup).length ∧
    ((analyze_exceptions [("h1", ⟨100, 2⟩), ("h2", ⟨5, 3⟩)]
        [("h1", ⟨150, 2, "w"⟩), ("h3", ⟨500, 3, "v"⟩)] (1/100)).map ExceptionRecord.hash).Nodup ∧
    ∀ h, h ∈ (analyze_exceptions [("h1", ⟨100, 2⟩), ("h2", ⟨5, 3⟩)]
        [("h1", ⟨150, 2, "w"⟩), ("h3", ⟨500, 3, "v"⟩)] (1/100)).map ExceptionRecord.hash ↔
        (h ∈ [("h1", (⟨100, 2⟩ : MsRecord)), ("h2", ⟨5, 3⟩)].map Prod.fst ∨
         h ∈ [("h1", (⟨150, 2, "w"⟩ : TsRecord)), ("h3", ⟨500, 3, "v"⟩)].map Prod.fst) :=
  analyze_exceptions_total_unique _ _ _

/-! ## C2 — four-way classification and severity rule -/

/-- C2: for every hash of the reconciliation input the classification and
severity follow the four-way rule: present in both within tolerance → MATCHED/OK;
present in both beyond tolerance → AMOUNT_DIFFERENT with LOW (< 1) / MEDIUM
(< 100) / HIGH on the absolute difference; only in MS_FORM (source A) →
IN_FORM_NOT_TRONSCAN with MEDIUM (amount < 100) / HIGH; only in TRONSCAN
(source B) → IN_TRONSCAN_NOT_FORM with the same rule on its amount. -/
theorem classify_severity_rule (ms : List (String × MsRecord))
    (ts : List (String × TsRecord)) (tol : ℚ) (h : String) :
    (∀ ra rb, alookup h ms = some ra → alookup h ts = some rb →
      (|ra.amount - rb.amount| ≤ tol →
        ∃ r, classifyHash ms ts tol h = some r ∧
          r.exception_type = ExcType.MATCHED ∧ get_severity r = Severity.OK) ∧
      (tol < |ra.amount - rb.amount| →
        ∃ r, classifyHash ms ts tol h = some r ∧
          r.exception_type = ExcType.AMOUNT_DIFFERENT ∧
          get_severity r = (if |ra.amount - rb.amount| < 1 then Severity.LOW
            else if |ra.amount - rb.amount| < 100 then Severity.MEDIUM
            else Severity.HIGH))) ∧
    (∀ ra, alookup h ms = some ra → alookup h ts = none →
      ∃ r, classifyHash ms ts tol h = some r ∧
        r.exception_type = ExcType.IN_FORM_NOT_TRONSCAN ∧
        get_severity r = (if ra.amount < 100 then Severity.MEDIUM else Severity.HIGH)) ∧
    (∀ rb, alookup h ms = none → alookup h ts = some rb →
      ∃ r, classifyHash ms ts tol h = some r ∧
        r.exception_type = ExcType.IN_TRONSCAN_NOT_FORM ∧
        get_severity r = (if rb.amount < 100 then Severity.MEDIUM else Severity.HIGH)) := by
  refine ⟨?_, ?_, ?_⟩
  · intro ra rb hA hB
    constructor
    · intro hle
      refine ⟨⟨h, ExcType.MATCHED, ra.amount, rb.amount, 0, rb.wallet,
        some ra.row_number, some rb.row_number⟩, ?_, rfl, rfl⟩
      unfold classifyHash
      rw [hA, hB]
      dsimp only
      rw [if_pos hle]
    · intro hgt
      refine ⟨⟨h, ExcType.AMOUNT_DIFFERENT, ra.amount, rb.amount,
        |ra.amount - rb.amount|, rb.wallet,
        some ra.row_number, some rb.row_number⟩, ?_, rfl, rfl⟩
      unfold classifyHash
      rw [hA, hB]
      dsimp only
      rw [if_neg (not_le.mpr hgt)]
  · intro ra hA hB
    refine ⟨⟨h, ExcType.IN_FORM_NOT_TRONSCAN, ra.amount, 0, ra.amount, "",
      some ra.row_number, none⟩, ?_, rfl, rfl⟩
    unfold classifyHash
    rw [hA, hB]
  · intro rb hA hB
    refine ⟨⟨h, ExcType.IN_TRONSCAN_NOT_FORM, 0, rb.amount, rb.amount, rb.wallet,
      none, some rb.row_number⟩, ?_, rfl, rfl⟩
    unfold classifyHash
    rw [hA, hB]

/-- C2 witness: concrete instantiations covering all four outcomes. -/
theorem classify_severity_rule_witness :
    (∃ r, classifyHash [("h1", ⟨100, 2⟩)] [("h1", ⟨100, 2, "w"⟩)] (1/100) "h1" = some r ∧
      r.exception_type = ExcType.MATCHED ∧ get_severity r = Severity.OK) ∧
    (∃ r, classifyHash [("h1", ⟨100, 2⟩)] [("h1", ⟨150, 2, "w"⟩)] (1/100) "h1" = some r ∧
      r.exception_type = ExcType.AMOUNT_DIFFERENT ∧
      get_severity r = (if |(100 : ℚ) - 150| < 1 then Severity.LOW
        else if |(100 : ℚ) - 150| < 100 then Severity.MEDIUM else Severity.HIGH)) ∧
    (∃ r, classifyHash [("h2", ⟨5, 2⟩)] [] (1/100) "h2" = some r ∧
      r.exception_type = ExcType.IN_FORM_NOT_TRONSCAN ∧
      get_severity r = (if (5 : ℚ) < 100 then Severity.MEDIUM else Severity.HIGH)) ∧
    (∃ r, classifyHash [] [("h3", ⟨500, 2, "v"⟩)] (1/100) "h3" = some r ∧
      r.exception_type = ExcType.IN_TRONSCAN_NOT_FORM ∧
      get_severity r = (if (500 : ℚ) < 100 then Severity.MEDIUM else Severity.HIGH)) := by
  refine ⟨?_, ?_, ?_, ?_⟩
  · exact ((classify_severity_rule [("h1", ⟨100, 2⟩)] [("h1", ⟨100, 2, "w"⟩)]
      (1/100) "h1").1 ⟨100, 2⟩ ⟨100, 2, "w"⟩ rfl rfl).1 (by norm_num)
  · exact ((classify_severity_rule [("h1", ⟨100, 2⟩)] [("h1", ⟨150, 2, "w"⟩)]
      (1/100) "h1").1 ⟨100, 2⟩ ⟨150, 2, "w"⟩ rfl rfl).2 (by norm_num)
  · exact (classify_severity_rule [("h2", ⟨5, 2⟩)] [] (1/100) "h2").2.1 ⟨5, 2⟩ rfl rfl
  · exact (classify_severity_rule [] [("h3", ⟨500, 2, "v"⟩)] (1/100) "h3").2.2 ⟨500, 2, "v"⟩ rfl rfl

/-! ## C3 — exact decimal scaling -/

/-- C3: for every valid rawAmount digit string whose value fits in the 28
significant digits the Decimal context guarantees, the formatted amount is
exactly `rawAmount / 10^decimals`, and scaling back by `10^decimals` recovers
the raw integer exactly (the round-trip property), for every `decimals ≥ 0`. -/
theorem convert_amount_exact_scaling (raw : String) (n d : ℕ)
    (hp : parseNatStr raw = some n) (hsig : sigDigits n ≤ 28) :
    (convert_amount_to_readable raw d).2 = some ((n : ℚ) / 10 ^ d) ∧
    ((n : ℚ) / 10 ^ d) * 10 ^ d = (n : ℚ) := by
  have h2 : (convert_amount_to_readable raw d).2 = some ((n : ℚ) / 10 ^ d) := by
    by_cases h0 : raw = ""
    · rw [h0, show parseNatStr "" = none from rfl] at hp
      exact Option.noConfusion hp
    · by_cases h1 : raw = "0"
      · have hn : n = 0 := by
          rw [h1, show parseNatStr "0" = some 0 from by decide] at hp
          exact (Option.some_injective _ hp).symm
        subst hn
        unfold convert_amount_to_readable
        rw [h1, if_pos (by decide)]
        norm_num
      · unfold convert_amount_to_readable
        rw [if_neg (by simp [h0, h1]), hp]
        dsimp only
        unfold decDiv
        rw [if_pos hsig]
  exact ⟨h2, div_mul_cancel₀ _ (pow_ne_zero d (by norm_num))⟩

/-- C3 witness: the digit string `123450000` at decimals ∈ {0, 6, 8, 18}. -/
theorem convert_amount_exact_scaling_witness :
    ((convert_amount_to_readable "123450000" 0).2 = some ((123450000 : ℚ) / 10 ^ 0) ∧
      ((123450000 : ℚ) / 10 ^ 0) * 10 ^ 0 = (123450000 : ℚ)) ∧
    ((convert_amount_to_readable "123450000" 6).2 = some ((123450000 : ℚ) / 10 ^ 6) ∧
      ((123450000 : ℚ) / 10 ^ 6) * 10 ^ 6 = (123450000 : ℚ)) ∧
    ((convert_amount_to_readable "123450000" 8).2 = some ((123450000 : ℚ) / 10 ^ 8) ∧
      ((123450000 : ℚ) / 10 ^ 8) * 10 ^ 8 = (123450000 : ℚ)) ∧
    ((convert_amount_to_readable "123450000" 18).2 = some ((123450000 : ℚ) / 10 ^ 18) ∧
      ((123450000 : ℚ) / 10 ^ 18) * 10 ^ 18 = (123450000 : ℚ)) :=
  ⟨convert_amount_exact_scaling "123450000" 123450000 0 (by decide) (by decide),
   convert_amount_exact_scaling "123450000" 123450000 6 (by decide) (by decide),
   convert_amount_exact_scaling "123450000" 123450000 8 (by decide) (by decide),
   convert_amount_exact_scaling "123450000" 123450000 18 (by decide) (by decide)⟩

/-! ## C4 — sign policy of the manual-ledger amount converter -/

/-- C4: a parenthesized amount is exactly the negated magnitude regardless of
category (`"(123.45)"` ↦ `-123.45`); for non-parenthesized input a category in
the positive-forcing set yields a nonnegative result and every other category a
nonpositive result. -/
theorem sign_policy :
    (∀ cat : String,
      extract_amount_with_category_logic "(123.45)" cat = -(12345/100 : ℚ)) ∧
    (∀ s cat : String, isParenWrapped s = false → cat ∈ negative_categories →
      0 ≤ extract_amount_with_category_logic s cat) ∧
    (∀ s cat : String, isParenWrapped s = false → cat ∉ negative_categories →
      extract_amount_with_category_logic s cat ≤ 0) := by
  refine ⟨?_, ?_, ?_⟩
  · intro cat
    have hshape : extract_amount_with_category_logic "(123.45)" cat
        = -|ratOfParts (false, 123, 45, 2)| := rfl
    have hval : ratOfParts (false, 123, 45, 2) = (12345/100 : ℚ) := by
      norm_num [ratOfParts]
    rw [hshape, hval, abs_of_nonneg (by norm_num : (0 : ℚ) ≤ 12345/100)]
  · intro s cat hpar hcat
    unfold extract_amount_with_category_logic
    by_cases h0 : s = ""
    · rw [if_pos h0]
    · rw [if_neg h0]
      rcases hpb : parsedBase s with _ | base
      · exact le_refl 0
      · dsimp only
        rw [hpar, if_neg Bool.false_ne_true, if_pos hcat]
        exact abs_nonneg base
  · intro s cat hpar hcat
    unfold extract_amount_with_category_logic
    by_cases h0 : s = ""
    · rw [if_pos h0]
    · rw [if_neg h0]
      rcases hpb : parsedBase s with _ | base
      · exact le_refl 0
      · dsimp only
        rw [hpar, if_neg Bool.false_ne_true, if_neg hcat]
        exact neg_nonpos.mpr (abs_nonneg base)

/-- C4 witness: the parenthesized example under a positive-forcing category, a
positive-forcing category on plain input, and a defaulted category. -/
theorem sign_policy_witness :
    extract_amount_with_category_logic "(123.45)" "REFUND" = -(12345/100 : ℚ) ∧
    (isParenWrapped "5" = false ∧ "REFUND" ∈ negative_categories ∧
      0 ≤ extract_amount_with_category_logic "5" "REFUND") ∧
    (isParenWrapped "5" = false ∧ "OTHER" ∉ negative_categories ∧
      extract_amount_with_category_logic "5" "OTHER" ≤ 0) :=
  ⟨sign_policy.1 "REFUND",
   ⟨by decide, by decide, sign_policy.2.1 "5" "REFUND" (by decide) (by decide)⟩,
   ⟨by decide, by decide, sign_policy.2.2 "5" "OTHER" (by decide) (by decide)⟩⟩

/-! ## C5 — the difference field (corrected)

The code writes `difference = 0.0` for records within tolerance
(exception_analysis.py line 180), so a MATCHED pair with amounts 100 and 100.005
reports difference 0, not 0.005. -/

/-- C5 counterexample: amounts 100 and 100.005 at tolerance 0.01 produce a
MATCHED record whose difference field is 0, while |amountA − amountB| = 0.005 ≠ 0
— refuting the claim that the difference field always equals |amountA − amountB|. -/
theorem difference_field_counterexample :
    (analyze_exceptions [("h1", ⟨100, 2⟩)] [("h1", ⟨20001/200, 2, "w"⟩)] (1/100)).map
        (fun r => (r.exception_type, r.difference))
      = [(ExcType.MATCHED, 0)] ∧
    |(100 : ℚ) - 20001/200| ≠ 0 := by
  constructor
  · have hle : |(100 : ℚ) - 20001/200| ≤ 1/100 := by
      rw [abs_le]
      constructor <;> norm_num
    have hcls : classifyHash [("h1", ⟨100, 2⟩)] [("h1", ⟨20001/200, 2, "w"⟩)] (1/100) "h1"
        = some ⟨"h1", ExcType.MATCHED, 100, 20001/200, 0, "w", some 2, some 2⟩ := by
      unfold classifyHash
      rw [show alookup "h1" [("h1", (⟨100, 2⟩ : MsRecord))] = some ⟨100, 2⟩ from rfl,
        show alookup "h1" [("h1", (⟨20001/200, 2, "w"⟩ : TsRecord))]
          = some ⟨20001/200, 2, "w"⟩ from rfl]
      dsimp only
      rw [if_pos hle]
    have hall : allHashes [("h1", (⟨100, 2⟩ : MsRecord))]
        [("h1", (⟨20001/200, 2, "w"⟩ : TsRecord))] = ["h1"] := rfl
    unfold analyze_exceptions
    rw [hall]
    simp only [List.filterMap_cons, hcls, List.filterMap_nil, List.map_cons, List.map_nil]
  · rw [abs_ne_zero]
    norm_num

/-- C5 amended: for a hash present in both sources the emitted record's
difference field equals |amountA − amountB| when the gap exceeds the tolerance
(outcome AMOUNT_DIFFERENT), and equals 0 when the gap is within tolerance
(outcome MATCHED). -/
theorem difference_field_amended (ms : List (String × MsRecord))
    (ts : List (String × TsRecord)) (tol : ℚ) (h : String) (ra : MsRecord)
    (rb : TsRecord) (hA : alookup h ms = some ra) (hB : alookup h ts = some rb) :
    ∃ r, classifyHash ms ts tol h = some r ∧
      r.difference = (if |ra.amount - rb.amount| ≤ tol then 0
        else |ra.amount - rb.amount|) := by
  by_cases hle : |ra.amount - rb.amount| ≤ tol
  · refine ⟨⟨h, ExcType.MATCHED, ra.amount, rb.amount, 0, rb.wallet,
      some ra.row_number, some rb.row_number⟩, ?_, ?_⟩
    · unfold classifyHash
      rw [hA, hB]
      dsimp only
      rw [if_pos hle]
    · rw [if_pos hle]
  · refine ⟨⟨h, ExcType.AMOUNT_DIFFERENT, ra.amount, rb.amount,
      |ra.amount - rb.amount|, rb.wallet,
      some ra.row_number, some rb.row_number⟩, ?_, ?_⟩
    · unfold classifyHash
      rw [hA, hB]
      dsimp only
      rw [if_neg hle]
    · rw [if_neg hle]

/-- C5 amended witness: the 100 vs 100.005 pair at tolerance 0.01. -/
theorem difference_field_amended_witness :
    ∃ r, classifyHash [("h1", ⟨100, 2⟩)] [("h1", ⟨20001/200, 2, "w"⟩)] (1/100) "h1"
        = some r ∧
      r.difference = (if |(100 : ℚ) - 20001/200| ≤ 1/100 then 0
        else |(100 : ℚ) - 20001/200|) :=
  difference_field_amended [("h1", ⟨100, 2⟩)] [("h1", ⟨20001/200, 2, "w"⟩)] (1/100) "h1"
    ⟨100, 2⟩ ⟨20001/200, 2, "w"⟩ rfl rfl

/-! ## C6 — non-numeric amounts (corrected)

The converter catches parse failures and returns 0.0 with a logged warning
(02_sync_ms_form.py 222–224); it never fails with an error. -/

/-- C6 counterexample: `"abc"` is nonempty after cleaning and non-numeric, yet
the converter returns the plain value 0 — the same value reserved for empty /
`"0"` input — instead of failing with an `InvalidAmount` error (the embedded
function is total with result type ℚ; no failure channel exists in the code). -/
theorem invalid_amount_counterexample :
    extract_amount_with_category_logic "abc" "X" = 0 ∧
    cleanAmount "abc" ≠ "" ∧ parsedBase "abc" = none := by
  refine ⟨rfl, by decide, rfl⟩

/-- C6 amended: the converter returns 0 (with a logged warning, not an error)
for every input that is non-numeric after stripping separators, currency symbols
and whitespace, and returns 0 without error for empty and `"0"` input; it is
total and never raises. -/
theorem invalid_amount_amended :
    (∀ s cat : String, parsedBase s = none →
      extract_amount_with_category_logic s cat = 0) ∧
    (∀ cat : String, extract_amount_with_category_logic "" cat = 0 ∧
      extract_amount_with_category_logic "0" cat = 0) := by
  constructor
  · intro s cat hpb
    unfold extract_amount_with_category_logic
    by_cases h0 : s = ""
    · rw [if_pos h0]
    · rw [if_neg h0, hpb]
  · intro cat
    refine ⟨rfl, ?_⟩
    unfold extract_amount_with_category_logic
    rw [if_neg (by decide : ¬("0" : String) = ""),
      show parsedBase "0" = some (ratOfParts (false, 0, 0, 0)) from rfl]
    dsimp only
    rw [show isParenWrapped "0" = false from rfl, if_neg Bool.false_ne_true]
    have hz : ratOfParts (false, 0, 0, 0) = 0 := by norm_num [ratOfParts]
    rw [hz]
    by_cases hc : cat ∈ negative_categories
    · rw [if_pos hc, abs_zero]
    · rw [if_neg hc, abs_zero, neg_zero]

/-- C6 amended witness: the non-numeric input `"abc"` under an arbitrary
category, plus the empty and `"0"` inputs. -/
theorem invalid_amount_amended_witness :
    extract_amount_with_category_logic "abc" "X" = 0 ∧
    (extract_amount_with_category_logic "" "X" = 0 ∧
      extract_amount_with_category_logic "0" "X" = 0) :=
  ⟨invalid_amount_amended.1 "abc" "X" rfl, invalid_amount_amended.2 "X"⟩

/-! ## C7 — hash extraction (corrected)

The `/transaction/` extraction is attempted only when the input contains the
substring `tronscan.org` (02_sync_ms_form.py line 178), so a generic URL such as
`https://x/transaction/<hash>` is returned unchanged, not reduced to the hash. -/

/-- A pattern always matches at the start of itself followed by anything. -/
theorem matchPat_self_append (p t : List Char) : matchPat p (p ++ t) = true := by
  induction p with
  | nil => rfl
  | cons x ps ih => simp [matchPat, ih]

/-- A successful pattern match decomposes the list. -/
theorem matchPat_append_ex (p : List Char) :
    ∀ l, matchPat p l = true → ∃ t, l = p ++ t := by
  induction p with
  | nil => exact fun l _ => ⟨l, rfl⟩
  | cons x ps ih =>
    intro l hm
    cases l with
    | nil => exact absurd hm (by simp [matchPat])
    | cons c cs =>
      have hm' : (x == c) = true ∧ matchPat ps cs = true := by
        simpa [matchPat, Bool.and_eq_true] using hm
      obtain ⟨t, ht⟩ := ih cs hm'.2
      obtain rfl := eq_of_beq hm'.1
      exact ⟨t, by rw [ht]; rfl⟩

/-- A list of hexadecimal characters cannot contain `tronscan.org` (the dot is
not a hex character). -/
theorem no_tron_in_hex (l : List Char) (hall : l.all isHexChar = true) :
    containsSub ("tronscan.org" : String).data l = false := by
  induction l with
  | nil => rfl
  | cons c cs ih =>
    have hc : isHexChar c = true ∧ cs.all isHexChar = true := by
      simpa [List.all_cons, Bool.and_eq_true] using hall
    have hm : matchPat ("tronscan.org" : String).data (c :: cs) = false := by
      rcases hmt : matchPat ("tronscan.org" : String).data (c :: cs) with _ | _
      · rfl
      · obtain ⟨t, ht⟩ := matchPat_append_ex _ _ hmt
        have hdot : ('.' : Char) ∈ c :: cs := by
          rw [ht]
          exact List.mem_append_left _ (by decide)
        have : isHexChar '.' = true :=
          List.all_eq_true.mp (by simpa [List.all_cons, Bool.and_eq_true] using hall)
            _ hdot
        exact absurd this (by decide)
    simp [containsSub, hm, ih hc.2]

/-- C7 counterexample: for h = 64 × 'a', `extract("https://x/transaction/" + h)`
returns the whole URL unchanged (the URL lacks `tronscan.org`), not `h` —
refuting the claimed behavior on every URL-style transaction path. -/
theorem extract_hash_counterexample :
    extract_hash_from_url ("https://x/transaction/" ++ String.mk (List.replicate 64 'a'))
      = "https://x/transaction/" ++ String.mk (List.replicate 64 'a') ∧
    "https://x/transaction/" ++ String.mk (List.replicate 64 'a')
      ≠ String.mk (List.replicate 64 'a') ∧
    is64Hex (String.mk (List.replicate 64 'a')) = true := by
  refine ⟨by decide, by decide, by decide⟩

/-- C7 amended: extraction of the 64-hex hash after `/transaction/` happens only
for inputs containing `tronscan.org` (then `extract("https://tronscan.org/#/transaction/" + h) = h`
for 64-hex h); every input without that substring — including bare 64-hex hashes
and arbitrary text — is returned unchanged; the function is total and never
throws. -/
theorem extract_hash_amended :
    (∀ h : String, is64Hex h = true →
      extract_hash_from_url ("https://tronscan.org/#/transaction/" ++ h) = h) ∧
    (∀ s : String, strContains s "tronscan.org" = false →
      extract_hash_from_url s = s) ∧
    (∀ s : String, is64Hex s = true → extract_hash_from_url s = s) := by
  have h2 : ∀ s : String, strContains s "tronscan.org" = false →
      extract_hash_from_url s = s := by
    intro s hns
    unfold extract_hash_from_url
    by_cases h0 : s = ""
    · rw [if_pos h0, h0]
    · rw [if_neg h0, hns, if_neg Bool.false_ne_true]
      exact ite_self s
  refine ⟨?_, h2, ?_⟩
  · intro h h64
    obtain ⟨hd⟩ := h
    have hparts : hd.length = 64 ∧ hd.all isHexChar = true := by
      simpa [is64Hex, Bool.and_eq_true, decide_eq_true_eq] using h64
    have htake : hd.take 64 = hd := by
      rw [← hparts.1]
      exact List.take_length hd
    have hfind : findTxHash (("https://tronscan.org/#/transaction/" : String).data ++ hd)
        = some hd := by
      rw [show findTxHash (("https://tronscan.org/#/transaction/" : String).data ++ hd)
          = (if (hd.take 64).length = 64 && (hd.take 64).all isHexChar
             then some (hd.take 64)
             else findTxHash (("transaction/" : String).data ++ hd)) from rfl]
      rw [htake, if_pos (by simp [hparts.1, hparts.2])]
    have hshape : extract_hash_from_url
          ("https://tronscan.org/#/transaction/" ++ (⟨hd⟩ : String))
        = (match findTxHash (("https://tronscan.org/#/transaction/" : String).data ++ hd) with
           | some hh => (⟨hh⟩ : String)
           | none =>
             if is64Hex ("https://tronscan.org/#/transaction/" ++ (⟨hd⟩ : String))
             then "https://tronscan.org/#/transaction/" ++ (⟨hd⟩ : String)
             else "https://tronscan.org/#/transaction/" ++ (⟨hd⟩ : String)) := rfl
    rw [hshape, hfind]
  · intro s h64
    apply h2
    have hhex : s.data.all isHexChar = true := by
      have := (by simpa [is64Hex, Bool.and_eq_true, decide_eq_true_eq] using h64 :
        s.data.length = 64 ∧ s.data.all isHexChar = true)
      exact this.2
    exact no_tron_in_hex s.data hhex

/-- C7 amended witness: a tronscan URL around a concrete 64-hex hash, a
non-tronscan string, and a bare 64-hex hash. -/
theorem extract_hash_amended_witness :
    extract_hash_from_url ("https://tronscan.org/#/transaction/"
        ++ String.mk (List.replicate 64 'b'))
      = String.mk (List.replicate 64 'b') ∧
    extract_hash_from_url "not a hash" = "not a hash" ∧
    extract_hash_from_url (String.mk (List.replicate 64 'b'))
      = String.mk (List.replicate 64 'b') :=
  ⟨extract_hash_amended.1 _ (by decide),
   extract_hash_amended.2.1 _ (by decide),
   extract_hash_amended.2.2 _ (by decide)⟩

/-! ## C8 — normalization totality -/

/-- C8: a raw transaction with k ≥ 1 structured token transfers yields exactly k
canonical records (one per transfer, never merged); with zero transfers it yields
exactly one synthetic TRX record whose raw amount comes from the first present
field among the top-level amount field, the value field and the nested
contract-data amount field, defaulting to "0". -/
theorem normalize_totality (tx : RawTransaction) :
    (extract_token_transfers tx ≠ [] →
      (normalize_transaction tx).length
        = tx.trc20TransferInfo.length + tx.tokenTransferInfo.length) ∧
    (extract_token_transfers tx = [] →
      normalize_transaction tx
        = [⟨tx.hash, tx.ownerAddress, tx.toAddress,
            (convert_amount_to_readable (extract_trx_value tx) 6).1,
            (convert_amount_to_readable (extract_trx_value tx) 6).2, "TRX", "TRX"⟩]) ∧
    (∀ a, tx.amount = some a → extract_trx_value tx = a) ∧
    (tx.amount = none → ∀ v, tx.value = some v → extract_trx_value tx = v) ∧
    (tx.amount = none → tx.value = none → ∀ cd, tx.contractData = some cd →
      extract_trx_value tx = cd.amount.getD "0") ∧
    (tx.amount = none → tx.value = none → tx.contractData = none →
      extract_trx_value tx = "0") := by
  refine ⟨?_, ?_, ?_, ?_, ?_, ?_⟩
  · intro hne
    simp only [normalize_transaction]
    rw [if_neg (fun hc => hne (List.isEmpty_iff.mp hc))]
    simp [extract_token_transfers, List.length_append, List.length_map]
  · intro hemp
    simp only [normalize_transaction]
    rw [if_pos (List.isEmpty_iff.mpr hemp)]
  · intro a ha
    unfold extract_trx_value
    rw [ha]
  · intro ha v hv
    unfold extract_trx_value
    rw [ha, hv]
  · intro ha hv cd hcd
    unfold extract_trx_value
    rw [ha, hv, hcd]
  · intro ha hv hcd
    unfold extract_trx_value
    rw [ha, hv, hcd]

/-- C8 witness: a transaction carrying two token transfers (one TRC20, one
TRC10) and a transfer-free transaction whose value sits in the `value` field. -/
theorem normalize_totality_witness :
    (normalize_transaction ⟨"h", 0, true, 1, "o", "t",
        [⟨"usdt", "Tether", "c", "1000000", 6, "f", "t"⟩],
        [⟨"btt", "BitTorrent", "", "5", 18, "f", "t"⟩], none, none, none⟩).length
      = ([(⟨"usdt", "Tether", "c", "1000000", 6, "f", "t"⟩ : TokenTransferInfo)]).length
        + ([(⟨"btt", "BitTorrent", "", "5", 18, "f", "t"⟩ : TokenTransferInfo)]).length ∧
    normalize_transaction ⟨"h2", 0, true, 1, "o", "t", [], [], none, some "777", none⟩
      = [⟨"h2", "o", "t",
          (convert_amount_to_readable
            (extract_trx_value ⟨"h2", 0, true, 1, "o", "t", [], [], none, some "777", none⟩) 6).1,
          (convert_amount_to_readable
            (extract_trx_value ⟨"h2", 0, true, 1, "o", "t", [], [], none, some "777", none⟩) 6).2,
          "TRX", "TRX"⟩] ∧
    extract_trx_value ⟨"h2", 0, true, 1, "o", "t", [], [], none, some "777", none⟩ = "777" :=
  ⟨(normalize_totality _).1 (by decide),
   (normalize_totality _).2.1 (by decide),
   (normalize_totality _).2.2.2.1 rfl "777" rfl⟩

/-! ## C9 — missing join column (corrected)

A source with no hash-like column logs a descriptive error but RETURNS `{}`
(exception_analysis.py 53–56 and 115–119); `main` aborts only when BOTH dicts
are empty (lines 387–389), so the run proceeds with the bad source treated as an
empty record set whenever the other source has data. -/

/-- C9 counterexample: an MS_FORM sheet with no hash-like header yields the
empty dict, and with a valid TRONSCAN sheet the run does NOT abort — it proceeds
and produces a nonempty reconciliation that treats the bad source as empty,
refuting the claim that a missing join column is fatal for the run. -/
theorem missing_column_counterexample :
    read_ms_form_data [["date", "note"], ["2024-01-01", "x"]] = [] ∧
    mainAborts [["date", "note"], ["2024-01-01", "x"]]
        [["HASH", "WALLET", "AMT"], ["h1", "w", "5"]] = false ∧
    analyze_exceptions
        (read_ms_form_data [["date", "note"], ["2024-01-01", "x"]])
        (read_tronscan_data [["HASH", "WALLET", "AMT"], ["h1", "w", "5"]]) (1/100)
      ≠ [] := by
  refine ⟨rfl, by decide, ?_⟩
  intro hc
  exact absurd (congrArg List.length hc) (by decide)

/-- C9 amended: a source whose sheet has no discoverable hash-like column (for
TRONSCAN: no `hash` or no `amt` header) produces an empty record set for that
source after logging a descriptive error, and the run aborts only when both
sources end up empty. -/
theorem missing_column_amended :
    (∀ hr rows ts, msHashCol hr = none →
      read_ms_form_data (hr :: rows) = [] ∧
      (mainAborts (hr :: rows) ts = true ↔ read_tronscan_data ts = [])) ∧
    (∀ hr rows ms, ((tsCols hr).1 = none ∨ (tsCols hr).2.2 = none) →
      read_tronscan_data (hr :: rows) = [] ∧
      (mainAborts ms (hr :: rows) = true ↔ read_ms_form_data ms = [])) := by
  constructor
  · intro hr rows ts hcol
    have hread : read_ms_form_data (hr :: rows) = [] := by
      unfold read_ms_form_data
      dsimp only
      rw [hcol]
    refine ⟨hread, ?_⟩
    unfold mainAborts
    rw [hread]
    simp [List.isEmpty_iff]
  · intro hr rows ms hcol
    have hread : read_tronscan_data (hr :: rows) = [] := by
      unfold read_tronscan_data
      dsimp only
      rcases htc : tsCols hr with ⟨h1, h2, h3⟩
      rw [htc] at hcol
      dsimp only at hcol
      rcases hcol with rfl | rfl
      · rfl
      · rcases h1 with _ | hc1
        · rfl
        · rfl
    refine ⟨hread, ?_⟩
    unfold mainAborts
    rw [hread]
    simp [List.isEmpty_iff]

/-- C9 amended witness: the sheets of the counterexample. -/
theorem missing_column_amended_witness :
    read_ms_form_data [["date", "note"], ["2024-01-01", "x"]] = [] ∧
    (mainAborts [["date", "note"], ["2024-01-01", "x"]]
        [["HASH", "WALLET", "AMT"], ["h1", "w", "5"]] = true ↔
      read_tronscan_data [["HASH", "WALLET", "AMT"], ["h1", "w", "5"]] = []) :=
  missing_column_amended.1 ["date", "note"] [["2024-01-01", "x"]]
    [["HASH", "WALLET", "AMT"], ["h1", "w", "5"]] (by decide)

/-! ## C10 — price-oracle caching -/

/-- C10: every resolved price is cached — including fallback values from failed
or unmapped fetches — so after one lookup for a symbol and calendar date, every
later lookup for the same uppercased symbol and the same calendar date returns
the identical cached value without invoking the fetch helper again (even under a
different external-service behavior), until `clear_cache`; after `clear_cache`
the external fetch path runs again. -/
theorem price_cache_idempotent (oracle oracle2 : FetchOracle)
    (cache : List ((String × ℤ) × ℚ)) (sym sym2 : String) (ts ts2 : ℤ)
    (hsym : pyUpper sym2 = pyUpper sym) (hdate : dateOf ts2 = dateOf ts) :
    get_historical_price oracle2 (get_historical_price oracle cache sym ts).2.1 sym2 ts2
      = ((get_historical_price oracle cache sym ts).1,
         (get_historical_price oracle cache sym ts).2.1, false) ∧
    ∀ c sym3 ts3, (get_historical_price oracle (clear_cache c) sym3 ts3).2.2 = true := by
  constructor
  · unfold get_historical_price
    dsimp only
    rcases hl : cacheLookup cache (pyUpper sym, dateOf ts) with _ | p
    · rw [hsym, hdate]
      dsimp only
      rw [show cacheLookup (((pyUpper sym, dateOf ts),
          fetch_historical_price_from_coingecko oracle (pyUpper sym) (dateOf ts)) :: cache)
          (pyUpper sym, dateOf ts)
        = some (fetch_historical_price_from_coingecko oracle (pyUpper sym) (dateOf ts)) from by
          unfold cacheLookup
          rw [if_pos rfl]]
    · rw [hsym, hdate]
      dsimp only
      rw [hl]
  · intro c sym3 ts3
    rfl

/-- C10 witness: a failing external service (every fetch errors, so the fallback
price is resolved and cached); the second lookup, at a later timestamp on the
same day and with a differently-cased symbol, hits the cache. -/
theorem price_cache_idempotent_witness :
    get_historical_price (fun _ _ => none)
        (get_historical_price (fun _ _ => none) [] "usdt" 1700000000000).2.1
        "USDT" 1700000050000
      = ((get_historical_price (fun _ _ => none) [] "usdt" 1700000000000).1,
         (get_historical_price (fun _ _ => none) [] "usdt" 1700000000000).2.1, false) ∧
    ∀ c sym3 ts3, (get_historical_price (fun _ _ => none) (clear_cache c) sym3 ts3).2.2 = true :=
  price_cache_idempotent (fun _ _ => none) (fun _ _ => none) [] "usdt" "USDT"
    1700000000000 1700000050000 (by decide) (by decide)
